import Mathlib

/-!
Verification development for the change-notification server (src/server.js).

The embedding models, faithfully to the JavaScript source:
  * a JSON value type with JS truthiness and `JSON.stringify` (minified);
  * the webhook endpoint `app.post` handler `notionWebhook`, parameterized by the
    HMAC-SHA256 hex-digest function (the external `crypto.createHmac` collaborator);
  * the signature gate's two distinct length metrics: the line-130 guard
    compares JS string `.length` (UTF-16 code units, `utf16Length`) while
    `crypto.timingSafeEqual` receives the `Buffer.from` UTF-8 bytes
    (`bufferFrom`) and throws when the byte counts differ — so a header
    containing a non-ASCII character (header bytes are latin-1 decoded) can
    pass the character-count guard yet make the comparison throw into the
    catch-all 500;
  * the SSE broadcast hub (`sseSend`, `sseBroadcast`) over streams with an
    explicit broken/alive flag — `res.write` on a broken stream is a
    refused (no-op) write whose boolean result the source ignores;
  * the debounce timer `scheduleReload` as a trace semantics over call times;
  * the Notion pagination loop `fetchAllItems` with the record normalizer
    `pageToItem`, driven by an abstract store `QueryArgs → Except String QueryResp`
    (the external `notion.databases.query` collaborator) and explicit fuel.
-/

/- JSON values as parsed by `express.json()`: the type of `req.body`.
Arrays and object field lists are part of the mutual inductive so that all
functions over JSON are structural (hence kernel-evaluable). -/
mutual
/-- JSON value. -/
inductive Json where
  | null
  | bool (b : Bool)
  | num (n : Int)
  | str (s : String)
  | arr (elems : JList)
  | obj (fields : JFields)
deriving DecidableEq, Repr
/-- JSON array contents. -/
inductive JList where
  | nil
  | cons (hd : Json) (tl : JList)
deriving DecidableEq, Repr
/-- JSON object contents: an ordered key-value list. -/
inductive JFields where
  | nil
  | cons (key : String) (val : Json) (tl : JFields)
deriving DecidableEq, Repr
end

/-- JS truthiness of a JSON value (`req.body && req.body.verification_token`). -/
def Json.truthy : Json → Bool
  | .null => false
  | .bool b => b
  | .num n => n != 0
  | .str s => !s.isEmpty
  | .arr _ => true
  | .obj _ => true

/-- Lookup of a key in an object's field list (first match, as JS property
access on parsed JSON, where keys are unique). -/
def JFields.lookup : JFields → String → Option Json
  | .nil, _ => none
  | .cons k v tl, key => if k = key then some v else tl.lookup key

/-- JS member access `j.k` on a parsed JSON value: a field of an object,
`none` standing for `undefined`. -/
def Json.getField : Json → String → Option Json
  | .obj fs, k => fs.lookup k
  | _, _ => none

/-- Truthiness of a possibly-`undefined` JS value. -/
def truthyOptJson : Option Json → Bool
  | none => false
  | some j => j.truthy

/-- Hex digit used by the string escaper. -/
def hexDigitChar (n : Nat) : Char :=
  if n < 10 then Char.ofNat (48 + n) else Char.ofNat (87 + n)

/-- Escaping of one character inside a JSON string literal, as
`JSON.stringify` performs it. -/
def escapeJsonChar (c : Char) : String :=
  if c = '"' then "\\\""
  else if c = '\\' then "\\\\"
  else if c = '\n' then "\\n"
  else if c = '\r' then "\\r"
  else if c = '\t' then "\\t"
  else if c = '\x08' then "\\b"
  else if c = '\x0c' then "\\f"
  else if c.toNat < 32 then
    "\\u00" ++ String.singleton (hexDigitChar (c.toNat / 16))
            ++ String.singleton (hexDigitChar (c.toNat % 16))
  else String.singleton c

/-- A JSON string literal with quotes and escapes. -/
def jsonQuote (s : String) : String :=
  "\"" ++ String.join (s.data.map escapeJsonChar) ++ "\""

/- JS `JSON.stringify` on a parsed JSON value: minified output, object
fields in insertion order, as the source's `payloadMinified` (line 126).
`stringifyList` and `stringifyFields` render the comma-joined insides of
arrays and objects. -/
mutual
/-- Model of `JSON.stringify`. -/
def Json.stringify : Json → String
  | .null => "null"
  | .bool b => cond b "true" "false"
  | .num n => toString n
  | .str s => jsonQuote s
  | .arr xs => "[" ++ Json.stringifyList xs ++ "]"
  | .obj fs => "\x7b" ++ Json.stringifyFields fs ++ "\x7d"
def Json.stringifyList : JList → String
  | .nil => ""
  | .cons x .nil => Json.stringify x
  | .cons x (.cons y tl) => Json.stringify x ++ "," ++ Json.stringifyList (.cons y tl)
def Json.stringifyFields : JFields → String
  | .nil => ""
  | .cons k v .nil => jsonQuote k ++ ":" ++ Json.stringify v
  | .cons k v (.cons k2 v2 tl) =>
      jsonQuote k ++ ":" ++ Json.stringify v ++ "," ++ Json.stringifyFields (.cons k2 v2 tl)
end

/-- Rendering a JS value by `console.log`: strings print raw, other values
are shown serialized. -/
def jsShow : Json → String
  | .str s => s
  | j => Json.stringify j

/-- Truthiness of an environment variable (`!WEBHOOK_SECRET`): unset or
empty is falsy. -/
def envTruthy : Option String → Bool
  | none => false
  | some s => !s.isEmpty

/-- JS `String.prototype.length`, as the line-130 guard uses it: the number
of UTF-16 code units (one per character below 0x10000, two for a character
encoded as a surrogate pair). -/
def utf16Length (s : String) : Nat :=
  (s.data.map (fun c => if c.toNat < 0x10000 then 1 else 2)).sum

/-- UTF-8 encoding of one character, as `Buffer.from(str)` performs it. -/
def utf8BytesChar (c : Char) : List Nat :=
  if c.toNat < 0x80 then [c.toNat]
  else if c.toNat < 0x800 then [0xC0 + c.toNat / 0x40, 0x80 + c.toNat % 0x40]
  else if c.toNat < 0x10000 then
    [0xE0 + c.toNat / 0x1000, 0x80 + (c.toNat / 0x40) % 0x40, 0x80 + c.toNat % 0x40]
  else
    [0xF0 + c.toNat / 0x40000, 0x80 + (c.toNat / 0x1000) % 0x40,
     0x80 + (c.toNat / 0x40) % 0x40, 0x80 + c.toNat % 0x40]

/-- Model of `Buffer.from(str)` (default encoding): the UTF-8 bytes of the
string. Its length can differ from `utf16Length` exactly when the string
has non-ASCII characters. -/
def bufferFrom (s : String) : List Nat := (s.data.map utf8BytesChar).flatten

/- Left inverse of the UTF-8 encoding, used only to prove that equal
buffers come from equal strings; the tail functions consume the
continuation bytes of 2-, 3- and 4-byte sequences. -/
mutual
/-- Decoder of a UTF-8 byte list. -/
def utf8Decode : List Nat → Option (List Char)
  | [] => some []
  | b1 :: rest =>
      if b1 < 0x80 then (utf8Decode rest).map (fun cs => Char.ofNat b1 :: cs)
      else if b1 < 0xE0 then utf8DecodeTail1 b1 rest
      else if b1 < 0xF0 then utf8DecodeTail2 b1 rest
      else utf8DecodeTail3 b1 rest
/-- Continuation of a two-byte sequence. -/
def utf8DecodeTail1 : Nat → List Nat → Option (List Char)
  | b1, b2 :: rest =>
      (utf8Decode rest).map (fun cs => Char.ofNat ((b1 - 0xC0) * 0x40 + (b2 - 0x80)) :: cs)
  | _, [] => none
/-- Continuation of a three-byte sequence. -/
def utf8DecodeTail2 : Nat → List Nat → Option (List Char)
  | b1, b2 :: b3 :: rest =>
      (utf8Decode rest).map (fun cs =>
        Char.ofNat ((b1 - 0xE0) * 0x1000 + (b2 - 0x80) * 0x40 + (b3 - 0x80)) :: cs)
  | _, _ => none
/-- Continuation of a four-byte sequence. -/
def utf8DecodeTail3 : Nat → List Nat → Option (List Char)
  | b1, b2 :: b3 :: b4 :: rest =>
      (utf8Decode rest).map (fun cs =>
        Char.ofNat ((b1 - 0xF0) * 0x40000 + (b2 - 0x80) * 0x1000 +
          (b3 - 0x80) * 0x40 + (b4 - 0x80)) :: cs)
  | _, _ => none
end

/-- Model of `crypto.timingSafeEqual(a, b)` on byte buffers: throws when the
buffers have different byte lengths, otherwise compares contents (the
timing aspect is not observable in this embedding). -/
def timingSafeEqual (a b : List Nat) : Except String Bool :=
  if a.length = b.length then .ok (a == b)
  else .error "Input buffers must have the same byte length"

/-- Severity of a console line. -/
inductive LogLevel where
  | info
  | warn
  | err
deriving DecidableEq, Repr

/-- The result constructors of the webhook route, one per `res.status(...).json(...)`
site in the handler. -/
inductive WResp where
  | verification
  | sigMismatch
  | okTrusted
  | internalErr
deriving DecidableEq, Repr

/-- HTTP status code sent for each webhook outcome. -/
def WResp.status : WResp → Nat
  | .verification => 200
  | .sigMismatch => 202
  | .okTrusted => 200
  | .internalErr => 500

/-- Conversion helper turning a Lean list of pairs into JSON object fields. -/
def JFields.ofList : List (String × Json) → JFields
  | [] => .nil
  | (k, v) :: tl => .cons k v (JFields.ofList tl)

/-- Conversion helper turning a Lean list into JSON array contents. -/
def JList.ofList : List Json → JList
  | [] => .nil
  | x :: tl => .cons x (JList.ofList tl)

/-- JSON body sent for each webhook outcome. -/
def WResp.bodyJson : WResp → Json
  | .verification => .obj (.ofList [("ok", .bool true), ("step", .str "verification")])
  | .sigMismatch => .obj (.ofList [("ok", .bool false), ("reason", .str "signature_mismatch")])
  | .okTrusted => .obj (.ofList [("ok", .bool true)])
  | .internalErr => .obj (.ofList [("ok", .bool false)])

/-- One incoming webhook request: the exact received body bytes, the body as
parsed by `express.json()`, and the `X-Notion-Signature` header if present. -/
structure WebhookReq where
  rawBody : String
  body : Json
  sigHeader : Option String

/-- Observable outcome of one webhook request: the response, whether
`scheduleReload()` was invoked, and the console output. -/
structure WebhookOut where
  resp : WResp
  reload : Bool
  logs : List (LogLevel × String)
deriving DecidableEq, Repr

/-- The `app.post` webhook handler of src/server.js lines 113-148,
parameterized by `hmacHex key msg`, the hex digest of HMAC-SHA256 (the
external `crypto.createHmac('sha256', key).update(msg).digest('hex')`).
Mirrors the source: the challenge branch requires no configured secret;
with a secret, the digest is computed over `JSON.stringify(req.body)`;
the line-130 guard compares JS UTF-16 string lengths, after which
`timingSafeEqual` compares the UTF-8 buffers and throws on a byte-count
mismatch; the surrounding try/catch maps a thrown comparison to the 500
branch. -/
def notionWebhook (hmacHex : String → String → String) (secret : Option String)
    (req : WebhookReq) : WebhookOut :=
  if req.body.truthy && truthyOptJson (req.body.getField "verification_token")
      && !(envTruthy secret) then
    { resp := .verification
      reload := false
      logs := [(.info, "\n[Notion Webhook] verification_token received:"),
               (.info, jsShow ((req.body.getField "verification_token").getD .null)),
               (.info, "👉 이 값을 Notion Webhooks UI의 Verify 창에 붙여넣어 검증을 완료하세요.")] }
  else if envTruthy secret then
    let sigHeader := req.sigHeader.getD ""
    let payloadMinified := Json.stringify req.body
    -- the source names this `calc`, a reserved word here
    let calcSig := "sha256=" ++ hmacHex (secret.getD "") payloadMinified
    if utf16Length sigHeader = utf16Length calcSig then
      match timingSafeEqual (bufferFrom sigHeader) (bufferFrom calcSig) with
      | .error e => { resp := .internalErr, reload := false, logs := [(.err, e)] }
      | .ok true => { resp := .okTrusted, reload := true, logs := [] }
      | .ok false =>
          { resp := .sigMismatch, reload := false
            logs := [(.warn, "[Notion Webhook] signature mismatch, ignoring.")] }
    else
      { resp := .sigMismatch, reload := false
        logs := [(.warn, "[Notion Webhook] signature mismatch, ignoring.")] }
  else
    { resp := .okTrusted, reload := true, logs := [] }

/-- Stand-in instantiation for the abstract HMAC-SHA256 hex-digest parameter,
used only to evaluate the handler on concrete inputs; it is injective, as a
digest is collision-free in practice. -/
def hmacStub (key msg : String) : String := key ++ "#" ++ msg

/-- One live SSE subscriber: the stream `res` held in the `sseClients` set,
with its written output and whether the underlying connection is broken
(a write to a broken stream is refused; `res.write` reports this via its
ignored boolean result and does not throw). -/
structure SSEClient where
  id : Nat
  broken : Bool
  buf : List String
deriving DecidableEq, Repr

/-- Model of `sseSend(res, event, data)` (source lines 32-35): two
`res.write` calls, the event line and the data line. On a broken stream the
writes are refused and the client is unchanged. -/
def sseSend (c : SSEClient) (event : String) (data : Json) : SSEClient :=
  if c.broken then c
  else { c with buf := c.buf ++ ["event: " ++ event ++ "\n",
                                "data: " ++ Json.stringify data ++ "\n\n"] }

/-- Model of `sseBroadcast(event, data)` (source lines 36-40): iterate over
the current subscriber set and send to each. The source has no error
handling and never mutates the set here. -/
def sseBroadcast (event : String) (data : Json) (clients : List SSEClient) : List SSEClient :=
  clients.map (fun c => sseSend c event data)

/-- Model of the `/api/stream` connect handler (source lines 47-52): send
`hello` to the fresh stream and add it to the set. -/
def streamConnect (clients : List SSEClient) (id : Nat) : List SSEClient :=
  clients ++ [sseSend { id := id, broken := false, buf := [] } "hello"
                (.obj (.cons "ok" (.bool true) .nil))]

/-- Model of the `req.on('close')` handler (source line 51): the only place
a subscriber is removed from the set. -/
def streamClose (clients : List SSEClient) (id : Nat) : List SSEClient :=
  clients.filter (fun c => c.id != id)

/-- Debounce duration of `scheduleReload` (source line 44). -/
def reloadDelayMs : Nat := 200

/-- Trace semantics of repeated `scheduleReload()` calls (source lines
41-45). The first argument is the pending timer's deadline, if one is set;
the second the (non-decreasing) wall-clock times of the remaining calls.
A pending timer fires iff its deadline is reached before the next call
runs; each call clears any pending timer and arms a new one for
`reloadDelayMs` later. The result lists the times at which the timer
callback runs, i.e. at which `sseBroadcast('reload', ...)` happens. -/
def runScheduleReload : Option Nat → List Nat → List Nat
  | some d, [] => [d]
  | none, [] => []
  | some d, t :: ts =>
      if d ≤ t then d :: runScheduleReload (some (t + reloadDelayMs)) ts
      else runScheduleReload (some (t + reloadDelayMs)) ts
  | none, t :: ts => runScheduleReload (some (t + reloadDelayMs)) ts

/-- One Notion rich-text fragment, of which only `plain_text` is read. -/
structure RichText where
  plain_text : Option String
deriving DecidableEq, Repr

/-- A Notion `date` property value, of which only `start` is read. -/
structure DateProp where
  start : Option String
deriving DecidableEq, Repr

/-- One Notion page property value; each shape-specific member is optional,
`none` standing for `undefined` under the source's optional chaining. -/
structure PropVal where
  title : Option (List RichText) := none
  number : Option Int := none
  rich_text : Option (List RichText) := none
  date : Option DateProp := none
  checkbox : Option Bool := none
deriving DecidableEq, Repr

/-- One raw page record returned by the external store. -/
structure RawPage where
  id : String
  properties : List (String × PropVal)
deriving DecidableEq, Repr

/-- The flat item produced by normalization (spec data model `Item`). -/
structure Item where
  id : String
  name : String
  level : Option Int
  upper : Option String
  dependency : Option String
  early_start : Option String
  late_start : Option String
  early_finish : Option String
  late_finish : Option String
  done : Bool
deriving DecidableEq, Repr

/-- Model of `richToText(r)` (source lines 58-60): join the `plain_text` of
every fragment, each defaulting to the empty string. -/
def richToText (r : Option (List RichText)) : String :=
  String.join ((r.getD []).map (fun v => v.plain_text.getD ""))

/-- Model of `getDate(prop)` (source lines 61-63): `prop?.date?.start || null`
(an empty start string is falsy and degrades to null). -/
def getDate (prop : Option PropVal) : Option String :=
  match (prop.bind (fun p => p.date)).bind (fun d => d.start) with
  | some s => if s.isEmpty then none else some s
  | none => none

/-- Model of the JS `String.prototype.trim()` call applied to the resolved
name: strip leading and trailing whitespace. Implemented structurally over
the character list so that it evaluates by kernel reduction. -/
def jsTrim (s : String) : String :=
  String.mk (((s.data.dropWhile Char.isWhitespace).reverse.dropWhile Char.isWhitespace).reverse)

/-- Resolution of the title array in `pageToItem` (source line 67):
`props['item name']?.title || props['Name']?.title || []`. A present
title array is truthy even when empty, so the fallback is consulted only
when the primary chain yields `undefined`. -/
def resolveTitle (props : List (String × PropVal)) : List RichText :=
  (((props.lookup "item name").bind (fun pv => pv.title)).or
    ((props.lookup "Name").bind (fun pv => pv.title))).getD []

/-- Model of `pageToItem(p)` (source lines 64-80): the record normalizer.
The name is the trimmed `plain_text` of the first fragment of the resolved
title array; `|| null` on the rich-text reads turns an empty join into
null; `?? null` keeps a numeric 0; `done` is `checkbox === true`. -/
def pageToItem (p : RawPage) : Item :=
  let props := p.properties
  let title := resolveTitle props
  { id := p.id
    name := jsTrim ((title.head?.bind (fun v => v.plain_text)).getD "")
    level := (props.lookup "level").bind (fun pv => pv.number)
    upper :=
      let s := richToText ((props.lookup "upper").bind (fun pv => pv.rich_text))
      if s.isEmpty then none else some s
    dependency :=
      let s := richToText ((props.lookup "dependency").bind (fun pv => pv.rich_text))
      if s.isEmpty then none else some s
    early_start := getDate (props.lookup "early start")
    late_start := getDate (props.lookup "late start")
    early_finish := getDate (props.lookup "early finish")
    late_finish := getDate (props.lookup "late finish")
    done := (props.lookup "Done").bind (fun pv => pv.checkbox) == some true }

/-- One sort directive passed to the external query (source lines 90-93). -/
inductive QuerySort where
  | byProp (property : String) (direction : String)
  | byTimestamp (timestamp : String) (direction : String)
deriving DecidableEq, Repr

/-- Arguments of one `notion.databases.query` request (source lines 86-94). -/
structure QueryArgs where
  database_id : String
  start_cursor : Option String
  page_size : Nat
  querySorts : List QuerySort
deriving DecidableEq, Repr

/-- The request built by the loop body of `fetchAllItems` for a given
cursor: fixed page size 100 and the two delegated sort directives. -/
def mkQuery (dbId : String) (cursor : Option String) : QueryArgs :=
  { database_id := dbId
    start_cursor := cursor
    page_size := 100
    querySorts := [.byProp "level" "ascending", .byTimestamp "last_edited_time" "ascending"] }

/-- One response page from the external store. -/
structure QueryResp where
  results : List RawPage
  has_more : Bool
  next_cursor : Option String
deriving DecidableEq, Repr

/-- The loop-continuation cursor (source lines 96-97):
`cursor = resp.has_more ? resp.next_cursor : undefined` followed by the
truthiness test `while (cursor)` (null, undefined and the empty string all
stop the loop). -/
def respCursor (resp : QueryResp) : Option String :=
  if resp.has_more then
    match resp.next_cursor with
    | some c => if c.isEmpty then none else some c
    | none => none
  else none

/-- The normalized, filtered items contributed by one response page
(source line 95): `resp.results.map(pageToItem).filter(x => x.name)`. -/
def pageItems (resp : QueryResp) : List Item :=
  (resp.results.map pageToItem).filter (fun x => !x.name.isEmpty)

/-- The do/while pagination loop of `fetchAllItems` (source lines 82-99),
driven by the abstract store. `fuel` bounds the number of requests issued;
`none` means the fuel ran out before the loop stopped (a model artifact
never reached when the store's cursor chain is finite). An upstream error
aborts the whole call, discarding the accumulator. -/
def fetchGo (store : QueryArgs → Except String QueryResp) (dbId : String) :
    Nat → Option String → List Item → Option (Except String (List Item))
  | 0, _, _ => none
  | Nat.succ fuel, cursor, items =>
      match store (mkQuery dbId cursor) with
      | .error e => some (.error e)
      | .ok resp =>
          let items2 := items ++ pageItems resp
          match respCursor resp with
          | some c => fetchGo store dbId fuel (some c) items2
          | none => some (.ok items2)

/-- Model of `fetchAllItems()` (source lines 82-99): start with an undefined
cursor and an empty accumulator. -/
def fetchAllItems (store : QueryArgs → Except String QueryResp) (dbId : String)
    (fuel : Nat) : Option (Except String (List Item)) :=
  fetchGo store dbId fuel none []

/-- Response of `GET /api/items` (source lines 102-110). -/
inductive ItemsResp where
  | ok (items : List Item)
  | fail (error : String) (detail : String)
deriving DecidableEq, Repr

/-- HTTP status of an items response. -/
def ItemsResp.status : ItemsResp → Nat
  | .ok _ => 200
  | .fail _ _ => 500

/-- Model of the `/api/items` handler (source lines 102-110): `fetchAllItems`
wrapped in try/catch, errors surfaced as `500 {error, detail}`. -/
def itemsEndpoint (store : QueryArgs → Except String QueryResp) (dbId : String)
    (fuel : Nat) : Option ItemsResp :=
  match fetchAllItems store dbId fuel with
  | some (.ok items) => some (.ok items)
  | some (.error e) => some (.fail "notion query failed" e)
  | none => none

/-- A finite cursor chain of successful responses offered by the store,
starting from the given cursor: each response except the last yields a
continuation cursor leading to the next, the last one stops the loop. -/
inductive Chained (store : QueryArgs → Except String QueryResp) (dbId : String) :
    Option String → List QueryResp → Prop
  | last {cur p} : store (mkQuery dbId cur) = .ok p → respCursor p = none →
      Chained store dbId cur [p]
  | step {cur p c ps} : store (mkQuery dbId cur) = .ok p → respCursor p = some c →
      Chained store dbId (some c) ps → Chained store dbId cur (p :: ps)

/-- A cursor chain that, after `n` successful continuing responses, hits an
upstream error. -/
inductive ChainedErr (store : QueryArgs → Except String QueryResp) (dbId : String) :
    Option String → String → Nat → Prop
  | here {cur e} : store (mkQuery dbId cur) = .error e → ChainedErr store dbId cur e 0
  | step {cur p c e n} : store (mkQuery dbId cur) = .ok p → respCursor p = some c →
      ChainedErr store dbId (some c) e n → ChainedErr store dbId cur e (n + 1)

/-- Auxiliary round trip: decoding after encoding one character recovers it
in front of whatever the remaining bytes decode to. -/
theorem utf8Decode_encChar (c : Char) (l : List Nat) :
    utf8Decode (utf8BytesChar c ++ l) = (utf8Decode l).map (fun cs => c :: cs) := by
  by_cases h1 : c.toNat < 0x80
  · have e1 : utf8BytesChar c = [c.toNat] := by
      unfold utf8BytesChar; rw [if_pos h1]
    rw [e1, List.singleton_append, utf8Decode, if_pos h1, Char.ofNat_toNat]
  · by_cases h2 : c.toNat < 0x800
    · have e1 : utf8BytesChar c = [0xC0 + c.toNat / 0x40, 0x80 + c.toNat % 0x40] := by
        unfold utf8BytesChar; rw [if_neg h1, if_pos h2]
      have hc1 : ¬ (0xC0 + c.toNat / 0x40 < 0x80) := by omega
      have hc2 : 0xC0 + c.toNat / 0x40 < 0xE0 := by omega
      have hrec : (0xC0 + c.toNat / 0x40 - 0xC0) * 0x40 + (0x80 + c.toNat % 0x40 - 0x80) =
          c.toNat := by omega
      rw [e1, List.cons_append, List.singleton_append, utf8Decode, if_neg hc1, if_pos hc2,
        utf8DecodeTail1, hrec, Char.ofNat_toNat]
    · by_cases h3 : c.toNat < 0x10000
      · have e1 : utf8BytesChar c =
            [0xE0 + c.toNat / 0x1000, 0x80 + (c.toNat / 0x40) % 0x40, 0x80 + c.toNat % 0x40] := by
          unfold utf8BytesChar; rw [if_neg h1, if_neg h2, if_pos h3]
        have hc1 : ¬ (0xE0 + c.toNat / 0x1000 < 0x80) := by omega
        have hc2 : ¬ (0xE0 + c.toNat / 0x1000 < 0xE0) := by omega
        have hc3 : 0xE0 + c.toNat / 0x1000 < 0xF0 := by omega
        have hrec : (0xE0 + c.toNat / 0x1000 - 0xE0) * 0x1000 +
            (0x80 + (c.toNat / 0x40) % 0x40 - 0x80) * 0x40 + (0x80 + c.toNat % 0x40 - 0x80) =
            c.toNat := by omega
        rw [e1, List.cons_append, List.cons_append, List.singleton_append,
          utf8Decode, if_neg hc1, if_neg hc2, if_pos hc3, utf8DecodeTail2, hrec,
          Char.ofNat_toNat]
      · have e1 : utf8BytesChar c =
            [0xF0 + c.toNat / 0x40000, 0x80 + (c.toNat / 0x1000) % 0x40,
             0x80 + (c.toNat / 0x40) % 0x40, 0x80 + c.toNat % 0x40] := by
          unfold utf8BytesChar; rw [if_neg h1, if_neg h2, if_neg h3]
        have hc1 : ¬ (0xF0 + c.toNat / 0x40000 < 0x80) := by omega
        have hc2 : ¬ (0xF0 + c.toNat / 0x40000 < 0xE0) := by omega
        have hc3 : ¬ (0xF0 + c.toNat / 0x40000 < 0xF0) := by omega
        have hrec : (0xF0 + c.toNat / 0x40000 - 0xF0) * 0x40000 +
            (0x80 + (c.toNat / 0x1000) % 0x40 - 0x80) * 0x1000 +
            (0x80 + (c.toNat / 0x40) % 0x40 - 0x80) * 0x40 + (0x80 + c.toNat % 0x40 - 0x80) =
            c.toNat := by omega
        rw [e1, List.cons_append, List.cons_append, List.cons_append, List.singleton_append,
          utf8Decode, if_neg hc1, if_neg hc2, if_neg hc3, utf8DecodeTail3, hrec,
          Char.ofNat_toNat]

/-- Auxiliary round trip: decoding the buffer of a string recovers the
string's characters. -/
theorem utf8Decode_bufferFrom (s : String) : utf8Decode (bufferFrom s) = some s.data := by
  cases s with
  | mk data =>
      simp only [bufferFrom]
      induction data with
      | nil => rfl
      | cons c cs ih =>
          rw [List.map_cons, List.flatten_cons, utf8Decode_encChar, ih]
          rfl

/-- Auxiliary: the UTF-8 buffer determines the string — `Buffer.from` is
injective, so an equal-buffer comparison certifies equal header strings. -/
theorem bufferFrom_inj {s t : String} (h : bufferFrom s = bufferFrom t) : s = t := by
  have hs := utf8Decode_bufferFrom s
  have ht := utf8Decode_bufferFrom t
  rw [h, ht] at hs
  cases s
  cases t
  exact congrArg String.mk (by simpa using hs.symm)

/-- Auxiliary: JS string length is additive under concatenation. -/
theorem utf16Length_append (s t : String) :
    utf16Length (s ++ t) = utf16Length s + utf16Length t := by
  simp [utf16Length, String.data_append]

/-- Auxiliary fact: an expected digest string always has positive JS length,
so a missing (empty) header can never pass the length guard. -/
theorem sha256_prefix_len_pos (d : String) :
    utf16Length "" ≠ utf16Length ("sha256=" ++ d) := by
  rw [utf16Length_append]
  have h7 : utf16Length "sha256=" = 7 := by decide
  have h0 : utf16Length "" = 0 := by decide
  omega

/-- Auxiliary characterization: once a secret is configured, the handler is
the signature gate of lines 124-137: first the JS `.length` (UTF-16) guard;
then `timingSafeEqual` on the UTF-8 buffers, which throws into the catch-all
500 branch when the byte counts differ; equal-length buffers compare equal
exactly when the header string equals the expected `sha256=<digest>`. -/
theorem notionWebhook_secret_eq (hmacHex : String → String → String)
    (secret : Option String) (req : WebhookReq) (hsec : envTruthy secret = true) :
    notionWebhook hmacHex secret req =
      (if utf16Length (req.sigHeader.getD "") =
          utf16Length ("sha256=" ++ hmacHex (secret.getD "") (Json.stringify req.body)) then
        if (bufferFrom (req.sigHeader.getD "")).length =
            (bufferFrom ("sha256=" ++ hmacHex (secret.getD "") (Json.stringify req.body))).length
        then
          if req.sigHeader.getD "" =
              "sha256=" ++ hmacHex (secret.getD "") (Json.stringify req.body) then
            { resp := .okTrusted, reload := true, logs := [] }
          else
            { resp := .sigMismatch, reload := false,
              logs := [(.warn, "[Notion Webhook] signature mismatch, ignoring.")] }
        else
          { resp := .internalErr, reload := false,
            logs := [(.err, "Input buffers must have the same byte length")] }
      else
        { resp := .sigMismatch, reload := false,
          logs := [(.warn, "[Notion Webhook] signature mismatch, ignoring.")] }) := by
  unfold notionWebhook
  rw [hsec]
  simp only [Bool.not_true, Bool.and_false, Bool.false_eq_true, if_false, if_true]
  by_cases hlen16 : utf16Length (req.sigHeader.getD "") =
      utf16Length ("sha256=" ++ hmacHex (secret.getD "") (Json.stringify req.body))
  · rw [if_pos hlen16, if_pos hlen16]
    by_cases hlenB : (bufferFrom (req.sigHeader.getD "")).length =
        (bufferFrom ("sha256=" ++ hmacHex (secret.getD "") (Json.stringify req.body))).length
    · rw [if_pos hlenB]
      simp only [timingSafeEqual, if_pos hlenB]
      by_cases heq : req.sigHeader.getD "" =
          "sha256=" ++ hmacHex (secret.getD "") (Json.stringify req.body)
      · have hb : (bufferFrom (req.sigHeader.getD "") ==
            bufferFrom ("sha256=" ++ hmacHex (secret.getD "") (Json.stringify req.body))) =
            true := by
          rw [heq]
          exact beq_self_eq_true _
        rw [hb, if_pos heq]
      · have hneq : bufferFrom (req.sigHeader.getD "") ≠
            bufferFrom ("sha256=" ++ hmacHex (secret.getD "") (Json.stringify req.body)) :=
          fun hcontra => heq (bufferFrom_inj hcontra)
        have hb : (bufferFrom (req.sigHeader.getD "") ==
            bufferFrom ("sha256=" ++ hmacHex (secret.getD "") (Json.stringify req.body))) =
            false := beq_eq_false_iff_ne.mpr hneq
        rw [hb, if_neg heq]
    · rw [if_neg hlenB]
      simp [timingSafeEqual, hlenB]
  · rw [if_neg hlen16, if_neg hlen16]

/-- The request used to exhibit the raw-bytes signing divergence: its raw
body bytes contain a space, its parsed body re-serializes without one, and
its signature header is the valid digest over the raw bytes. -/
def c1Req : WebhookReq :=
  { rawBody := "\x7b\"a\": 1\x7d"
    body := .obj (.cons "a" (.num 1) .nil)
    sigHeader := some ("sha256=" ++ hmacStub "k" "\x7b\"a\": 1\x7d") }

/-- C1: the claim that the handler signs the exact received body bytes fails
on the code. The handler computes the digest over `JSON.stringify(req.body)`
(a re-serialized copy); at this input the signature header is the valid
digest over the exact raw bytes, the re-serialization differs from those
bytes, and the handler answers 202 signature_mismatch with no reload instead
of trusting the request. -/
theorem webhook_rejects_valid_raw_body_signature :
    c1Req.sigHeader = some ("sha256=" ++ hmacStub "k" c1Req.rawBody) ∧
    Json.stringify c1Req.body ≠ c1Req.rawBody ∧
    (notionWebhook hmacStub (some "k") c1Req).resp = .sigMismatch ∧
    (notionWebhook hmacStub (some "k") c1Req).resp.status = 202 ∧
    (notionWebhook hmacStub (some "k") c1Req).reload = false := by
  refine ⟨rfl, by decide, by decide, by decide, by decide⟩

/-- C4 counterexample: the claim's 'any single-byte mutation of the header is
classified Untrusted without throwing and answered 202' is false of the
program. Take the valid digest string and mutate its final byte 0x7d to
0xe9, which Node's latin-1 header decoding presents as the character é:
the character count still matches the expected digest's, so the line-130
guard passes, but the UTF-8 buffer is one byte longer, `timingSafeEqual`
throws, and the handler answers 500 {ok:false}, not 202. -/
theorem webhook_nonascii_header_throws_500 :
    utf16Length "sha256=k#\x7bé" =
      utf16Length ("sha256=" ++ hmacStub "k" (Json.stringify (Json.obj .nil))) ∧
    notionWebhook hmacStub (some "k")
        { rawBody := "\x7b\x7d", body := .obj .nil, sigHeader := some "sha256=k#\x7bé" } =
      { resp := .internalErr, reload := false,
        logs := [(.err, "Input buffers must have the same byte length")] } ∧
    WResp.status .internalErr = 500 := by
  refine ⟨by decide, by decide, rfl⟩

/-- C4 (amended): with a configured secret the gate behaves as follows. A
header whose JS (UTF-16) length differs from the expected digest string's —
in particular an absent header — is soft-rejected 202 signature_mismatch
with no reload and no throw; so is any non-matching header whose UTF-8
byte count equals the digest's (which covers every ASCII mutation of body
or header). A request is trusted exactly when the header equals the
expected digest — never while the signature fails — and no reload is
scheduled otherwise. However, a header whose character count matches the
digest's while its UTF-8 byte count differs (a non-ASCII mutation) makes
`timingSafeEqual` throw and the handler answer 500, not 202. -/
theorem webhook_mismatch_soft_rejected (hmacHex : String → String → String)
    (secret : Option String) (req : WebhookReq) (hsec : envTruthy secret = true) :
    (utf16Length (req.sigHeader.getD "") ≠
        utf16Length ("sha256=" ++ hmacHex (secret.getD "") (Json.stringify req.body)) →
      notionWebhook hmacHex secret req =
        { resp := .sigMismatch, reload := false,
          logs := [(.warn, "[Notion Webhook] signature mismatch, ignoring.")] } ∧
      WResp.status .sigMismatch = 202) ∧
    (req.sigHeader = none →
      (notionWebhook hmacHex secret req).resp = .sigMismatch) ∧
    (req.sigHeader.getD "" ≠
        "sha256=" ++ hmacHex (secret.getD "") (Json.stringify req.body) →
      (bufferFrom (req.sigHeader.getD "")).length =
        (bufferFrom ("sha256=" ++ hmacHex (secret.getD "") (Json.stringify req.body))).length →
      notionWebhook hmacHex secret req =
        { resp := .sigMismatch, reload := false,
          logs := [(.warn, "[Notion Webhook] signature mismatch, ignoring.")] }) ∧
    (utf16Length (req.sigHeader.getD "") =
        utf16Length ("sha256=" ++ hmacHex (secret.getD "") (Json.stringify req.body)) →
      (bufferFrom (req.sigHeader.getD "")).length ≠
        (bufferFrom ("sha256=" ++ hmacHex (secret.getD "") (Json.stringify req.body))).length →
      notionWebhook hmacHex secret req =
        { resp := .internalErr, reload := false,
          logs := [(.err, "Input buffers must have the same byte length")] } ∧
      WResp.status .internalErr = 500) ∧
    (req.sigHeader.getD "" =
        "sha256=" ++ hmacHex (secret.getD "") (Json.stringify req.body) →
      notionWebhook hmacHex secret req = { resp := .okTrusted, reload := true, logs := [] }) ∧
    (req.sigHeader.getD "" ≠
        "sha256=" ++ hmacHex (secret.getD "") (Json.stringify req.body) →
      (notionWebhook hmacHex secret req).resp ≠ .okTrusted ∧
      (notionWebhook hmacHex secret req).reload = false) := by
  rw [notionWebhook_secret_eq hmacHex secret req hsec]
  refine ⟨?_, ?_, ?_, ?_, ?_, ?_⟩
  · intro hl16
    rw [if_neg hl16]
    exact ⟨rfl, rfl⟩
  · intro hnone
    rw [hnone]
    simp only [Option.getD_none]
    rw [if_neg (sha256_prefix_len_pos _)]
  · intro hne hlenB
    by_cases hl16 : utf16Length (req.sigHeader.getD "") =
        utf16Length ("sha256=" ++ hmacHex (secret.getD "") (Json.stringify req.body))
    · rw [if_pos hl16, if_pos hlenB, if_neg hne]
    · rw [if_neg hl16]
  · intro hl16 hlenB
    rw [if_pos hl16, if_neg hlenB]
    exact ⟨rfl, rfl⟩
  · intro heq
    have hl16 : utf16Length (req.sigHeader.getD "") =
        utf16Length ("sha256=" ++ hmacHex (secret.getD "") (Json.stringify req.body)) := by
      rw [heq]
    have hlb : (bufferFrom (req.sigHeader.getD "")).length =
        (bufferFrom ("sha256=" ++ hmacHex (secret.getD "") (Json.stringify req.body))).length := by
      rw [heq]
    rw [if_pos hl16, if_pos hlb, if_pos heq]
  · intro hne
    by_cases hl16 : utf16Length (req.sigHeader.getD "") =
        utf16Length ("sha256=" ++ hmacHex (secret.getD "") (Json.stringify req.body))
    · by_cases hlb : (bufferFrom (req.sigHeader.getD "")).length =
          (bufferFrom ("sha256=" ++ hmacHex (secret.getD "") (Json.stringify req.body))).length
      · rw [if_pos hl16, if_pos hlb, if_neg hne]
        exact ⟨by simp, rfl⟩
      · rw [if_pos hl16, if_neg hlb]
        exact ⟨by simp, rfl⟩
    · rw [if_neg hl16]
      exact ⟨by simp, rfl⟩

/-- C4 witness: a wrong-length header is answered 202 signature_mismatch
with no reload, and an equal-character-count non-ASCII header is answered
500 by the thrown comparison. -/
theorem webhook_mismatch_soft_rejected_witness :
    notionWebhook hmacStub (some "k")
        { rawBody := "\x7b\x7d", body := .obj .nil, sigHeader := some "bad" } =
      { resp := .sigMismatch, reload := false,
        logs := [(.warn, "[Notion Webhook] signature mismatch, ignoring.")] } ∧
    notionWebhook hmacStub (some "k")
        { rawBody := "\x7b\x7d", body := .obj .nil, sigHeader := some "sha256=k#é\x7b" } =
      { resp := .internalErr, reload := false,
        logs := [(.err, "Input buffers must have the same byte length")] } := by
  constructor
  · exact ((webhook_mismatch_soft_rejected hmacStub (some "k")
      { rawBody := "\x7b\x7d", body := .obj .nil, sigHeader := some "bad" }
      (by decide)).1 (by decide)).1
  · exact ((webhook_mismatch_soft_rejected hmacStub (some "k")
      { rawBody := "\x7b\x7d", body := .obj .nil, sigHeader := some "sha256=k#é\x7b" }
      (by decide)).2.2.2.1 (by decide) (by decide)).1

/-- C10 counterexample: the claim's 'rejected with 202 signature_mismatch
unless its signature header matches' is false of the program. With a secret
configured and a verification-token body, a non-matching header whose
character count equals the expected digest's but whose final byte is
mutated to the non-ASCII é passes the line-130 guard with a UTF-8 buffer
one byte longer, so `timingSafeEqual` throws and the handler answers 500,
not 202. -/
theorem webhook_challenge_nonascii_header_500 :
    notionWebhook hmacStub (some "k")
        { rawBody := "\x7b\"verification_token\":\"tok\"\x7d"
          body := .obj (.cons "verification_token" (.str "tok") .nil)
          sigHeader := some "sha256=k#\x7b\"verification_token\":\"tok\"é" } =
      { resp := .internalErr, reload := false,
        logs := [(.err, "Input buffers must have the same byte length")] } ∧
    WResp.status .internalErr = 500 ∧
    WResp.status .internalErr ≠ 202 := by
  refine ⟨by decide, rfl, by decide⟩

/-- C10 (amended): while a secret is configured, a body carrying a
verification token is never handled as a challenge (that branch requires no
secret); the request falls through to signature verification: it is trusted
(200, reload scheduled) exactly when the header equals the expected digest;
otherwise it is rejected with no reload — with 202 signature_mismatch when
the JS length guard fails or the byte-length-equal buffer comparison
mismatches, but with 500 when the character counts match while the UTF-8
byte counts differ and the comparison throws. -/
theorem webhook_challenge_requires_no_secret (hmacHex : String → String → String)
    (secret : Option String) (req : WebhookReq) (hsec : envTruthy secret = true)
    (_hvt : truthyOptJson (req.body.getField "verification_token") = true) :
    (notionWebhook hmacHex secret req).resp ≠ .verification ∧
    (req.sigHeader.getD "" =
        "sha256=" ++ hmacHex (secret.getD "") (Json.stringify req.body) →
      notionWebhook hmacHex secret req =
        { resp := .okTrusted, reload := true, logs := [] }) ∧
    (req.sigHeader.getD "" ≠
        "sha256=" ++ hmacHex (secret.getD "") (Json.stringify req.body) →
      (notionWebhook hmacHex secret req).resp ≠ .okTrusted ∧
      (notionWebhook hmacHex secret req).reload = false) ∧
    (utf16Length (req.sigHeader.getD "") ≠
        utf16Length ("sha256=" ++ hmacHex (secret.getD "") (Json.stringify req.body)) →
      notionWebhook hmacHex secret req =
        { resp := .sigMismatch, reload := false,
          logs := [(.warn, "[Notion Webhook] signature mismatch, ignoring.")] }) ∧
    (req.sigHeader.getD "" ≠
        "sha256=" ++ hmacHex (secret.getD "") (Json.stringify req.body) →
      (bufferFrom (req.sigHeader.getD "")).length =
        (bufferFrom ("sha256=" ++ hmacHex (secret.getD "") (Json.stringify req.body))).length →
      notionWebhook hmacHex secret req =
        { resp := .sigMismatch, reload := false,
          logs := [(.warn, "[Notion Webhook] signature mismatch, ignoring.")] }) ∧
    (utf16Length (req.sigHeader.getD "") =
        utf16Length ("sha256=" ++ hmacHex (secret.getD "") (Json.stringify req.body)) →
      (bufferFrom (req.sigHeader.getD "")).length ≠
        (bufferFrom ("sha256=" ++ hmacHex (secret.getD "") (Json.stringify req.body))).length →
      notionWebhook hmacHex secret req =
        { resp := .internalErr, reload := false,
          logs := [(.err, "Input buffers must have the same byte length")] }) := by
  rw [notionWebhook_secret_eq hmacHex secret req hsec]
  refine ⟨?_, ?_, ?_, ?_, ?_, ?_⟩
  · by_cases hl16 : utf16Length (req.sigHeader.getD "") =
        utf16Length ("sha256=" ++ hmacHex (secret.getD "") (Json.stringify req.body))
    · by_cases hlb : (bufferFrom (req.sigHeader.getD "")).length =
          (bufferFrom ("sha256=" ++ hmacHex (secret.getD "") (Json.stringify req.body))).length
      · by_cases heq : req.sigHeader.getD "" =
            "sha256=" ++ hmacHex (secret.getD "") (Json.stringify req.body)
        · rw [if_pos hl16, if_pos hlb, if_pos heq]
          simp
        · rw [if_pos hl16, if_pos hlb, if_neg heq]
          simp
      · rw [if_pos hl16, if_neg hlb]
        simp
    · rw [if_neg hl16]
      simp
  · intro heq
    have hl16 : utf16Length (req.sigHeader.getD "") =
        utf16Length ("sha256=" ++ hmacHex (secret.getD "") (Json.stringify req.body)) := by
      rw [heq]
    have hlb : (bufferFrom (req.sigHeader.getD "")).length =
        (bufferFrom ("sha256=" ++ hmacHex (secret.getD "") (Json.stringify req.body))).length := by
      rw [heq]
    rw [if_pos hl16, if_pos hlb, if_pos heq]
  · intro hne
    by_cases hl16 : utf16Length (req.sigHeader.getD "") =
        utf16Length ("sha256=" ++ hmacHex (secret.getD "") (Json.stringify req.body))
    · by_cases hlb : (bufferFrom (req.sigHeader.getD "")).length =
          (bufferFrom ("sha256=" ++ hmacHex (secret.getD "") (Json.stringify req.body))).length
      · rw [if_pos hl16, if_pos hlb, if_neg hne]
        exact ⟨by simp, rfl⟩
      · rw [if_pos hl16, if_neg hlb]
        exact ⟨by simp, rfl⟩
    · rw [if_neg hl16]
      exact ⟨by simp, rfl⟩
  · intro hl16
    rw [if_neg hl16]
  · intro hne hlb
    by_cases hl16 : utf16Length (req.sigHeader.getD "") =
        utf16Length ("sha256=" ++ hmacHex (secret.getD "") (Json.stringify req.body))
    · rw [if_pos hl16, if_pos hlb, if_neg hne]
    · rw [if_neg hl16]
  · intro hl16 hlb
    rw [if_pos hl16, if_neg hlb]

/-- C10 witness: with a secret configured, a concrete verification-token
body with no signature header is not treated as a challenge and is
soft-rejected 202 signature_mismatch. -/
theorem webhook_challenge_requires_no_secret_witness :
    (notionWebhook hmacStub (some "k")
        { rawBody := "\x7b\"verification_token\":\"tok\"\x7d"
          body := .obj (.cons "verification_token" (.str "tok") .nil)
          sigHeader := none }).resp ≠ .verification ∧
    notionWebhook hmacStub (some "k")
        { rawBody := "\x7b\"verification_token\":\"tok\"\x7d"
          body := .obj (.cons "verification_token" (.str "tok") .nil)
          sigHeader := none } =
      { resp := .sigMismatch, reload := false,
        logs := [(.warn, "[Notion Webhook] signature mismatch, ignoring.")] } := by
  have h := webhook_challenge_requires_no_secret hmacStub (some "k")
      { rawBody := "\x7b\"verification_token\":\"tok\"\x7d"
        body := .obj (.cons "verification_token" (.str "tok") .nil)
        sigHeader := none }
      (by decide) (by decide)
  exact ⟨h.1, h.2.2.2.1 (by decide)⟩

/-- C5 counterexample: in permissive mode (no secret, no verification token)
the handler trusts the request and schedules a reload, but its console
output is empty — no warning is logged, refuting the claim's logging part. -/
theorem permissive_mode_logs_nothing :
    notionWebhook hmacStub none { rawBody := "\x7b\x7d", body := .obj .nil, sigHeader := none } =
      { resp := .okTrusted, reload := true, logs := [] } := by
  decide

/-- C5 (amended): when no secret is configured and the payload carries no
verification token, the request is treated as trusted — 200 ok with a
coalesced reload scheduled — and nothing at all is logged (in particular,
no warning). -/
theorem permissive_trusted_no_warning (hmacHex : String → String → String)
    (secret : Option String) (req : WebhookReq)
    (hsec : envTruthy secret = false)
    (hvt : truthyOptJson (req.body.getField "verification_token") = false) :
    notionWebhook hmacHex secret req = { resp := .okTrusted, reload := true, logs := [] } ∧
    WResp.status .okTrusted = 200 := by
  constructor
  · unfold notionWebhook
    rw [hvt, hsec]
    simp
  · rfl

/-- C5 witness: a concrete tokenless request with no secret configured is
trusted with a scheduled reload and an empty log. -/
theorem permissive_trusted_no_warning_witness :
    notionWebhook hmacStub none
        { rawBody := "\x7b\"x\":2\x7d", body := .obj (.cons "x" (.num 2) .nil), sigHeader := none } =
      { resp := .okTrusted, reload := true, logs := [] } :=
  (permissive_trusted_no_warning hmacStub none
      { rawBody := "\x7b\"x\":2\x7d", body := .obj (.cons "x" (.num 2) .nil), sigHeader := none }
      (by decide) (by decide)).1

/-- C2 counterexample: a broadcast over a set containing a broken subscriber
leaves the set unchanged — the subscriber whose stream refuses the write is
not removed from the active set, refuting the claim's removal part. -/
theorem broadcast_keeps_broken_subscriber :
    sseBroadcast "reload" (.obj (.cons "t" (.num 5) .nil))
        [{ id := 0, broken := true, buf := [] }] =
      [{ id := 0, broken := true, buf := [] }] := by
  decide

/-- C2 (amended): `sseBroadcast` writes the serialized event and payload to
every currently active subscriber and never throws (it is total); a write
refused by a closed/broken stream is simply ignored — the subscriber is not
removed from the active set by broadcast (the membership, by id, is
preserved exactly); removal happens only in the connection-close handler. -/
theorem broadcast_delivers_and_preserves_set (event : String) (data : Json)
    (clients : List SSEClient) :
    sseBroadcast event data clients = clients.map (fun c => sseSend c event data) ∧
    (sseBroadcast event data clients).map (fun c => c.id) = clients.map (fun c => c.id) ∧
    (∀ c ∈ clients, c.broken = false →
      (sseSend c event data).buf =
        c.buf ++ ["event: " ++ event ++ "\n",
                  "data: " ++ Json.stringify data ++ "\n\n"]) ∧
    (∀ c ∈ clients, c.broken = true → sseSend c event data = c) := by
  refine ⟨rfl, ?_, ?_, ?_⟩
  · induction clients with
    | nil => rfl
    | cons c cs ih =>
        have hid : (sseSend c event data).id = c.id := by
          unfold sseSend
          split <;> rfl
        simpa [sseBroadcast, hid] using ih
  · intro c _ hb
    simp [sseSend, hb]
  · intro c _ hb
    simp [sseSend, hb]

/-- C2 witness: on a concrete two-subscriber set (one live, one broken) the
ids are preserved, the broken stream is untouched and the live stream
receives the two SSE lines. -/
theorem broadcast_delivers_and_preserves_set_witness :
    ((sseBroadcast "reload" (.obj (.cons "t" (.num 5) .nil))
        [{ id := 0, broken := false, buf := [] },
         { id := 1, broken := true, buf := ["x"] }]).map (fun c => c.id) =
      ([{ id := 0, broken := false, buf := [] },
        { id := 1, broken := true, buf := ["x"] }] : List SSEClient).map (fun c => c.id)) ∧
    (sseSend { id := 1, broken := true, buf := ["x"] } "reload"
        (.obj (.cons "t" (.num 5) .nil)) = { id := 1, broken := true, buf := ["x"] }) ∧
    ((sseSend { id := 0, broken := false, buf := [] } "reload"
        (.obj (.cons "t" (.num 5) .nil))).buf =
      [] ++ ["event: " ++ "reload" ++ "\n",
             "data: " ++ Json.stringify (.obj (.cons "t" (.num 5) .nil)) ++ "\n\n"]) := by
  have h := broadcast_delivers_and_preserves_set "reload" (.obj (.cons "t" (.num 5) .nil))
      [{ id := 0, broken := false, buf := [] }, { id := 1, broken := true, buf := ["x"] }]
  exact ⟨h.2.1, h.2.2.2 _ (by decide) rfl, h.2.2.1 _ (by decide) rfl⟩

/-- Auxiliary induction for the debouncer: with a timer armed by a call at
time `t`, a further burst whose every gap keeps the next call under the
pending deadline yields exactly one firing, at the last call plus the delay. -/
theorem runScheduleReload_aux (ts : List Nat) : ∀ t : Nat,
    List.Chain' (fun a b => a ≤ b ∧ b < a + reloadDelayMs) (t :: ts) →
    runScheduleReload (some (t + reloadDelayMs)) ts = [ts.getLastD t + reloadDelayMs] := by
  induction ts with
  | nil => intro t _; rfl
  | cons u ts ih =>
      intro t hch
      have h1 : t ≤ u ∧ u < t + reloadDelayMs := (List.chain'_cons.mp hch).1
      have h2 := (List.chain'_cons.mp hch).2
      have hlt : ¬ (t + reloadDelayMs ≤ u) := by omega
      rw [runScheduleReload, if_neg hlt, ih u h2, List.getLastD_cons]

/-- C3: for every burst of `scheduleReload()` calls whose inter-call gaps are
all strictly less than the 200 ms delay, exactly one reload broadcast
happens, and it fires exactly 200 ms after the last call of the burst. Each
call clears the pending timer and arms a new one, which is what the trace
semantics `runScheduleReload` encodes. -/
theorem scheduleReload_coalesces_burst (t : Nat) (ts : List Nat)
    (hgaps : List.Chain' (fun a b => a ≤ b ∧ b < a + reloadDelayMs) (t :: ts)) :
    runScheduleReload none (t :: ts) = [(t :: ts).getLastD 0 + reloadDelayMs] := by
  have h0 : runScheduleReload none (t :: ts) =
      runScheduleReload (some (t + reloadDelayMs)) ts := rfl
  rw [h0, runScheduleReload_aux ts t hgaps, List.getLastD_cons]

/-- C3 witness: calls at 0, 50 and 100 ms produce exactly one reload
broadcast, at 300 ms. -/
theorem scheduleReload_coalesces_burst_witness :
    runScheduleReload none [0, 50, 100] = [300] :=
  (scheduleReload_coalesces_burst 0 [50, 100]
    (List.Chain.cons (by decide) (List.Chain.cons (by decide) List.Chain.nil))).trans (by decide)

/-- Auxiliary: running the pagination loop over a finite successful cursor
chain appends exactly the chain's normalized pages, in chain order, to the
accumulator. -/
theorem fetchGo_chained {store : QueryArgs → Except String QueryResp} {dbId : String}
    {cur : Option String} {pages : List QueryResp}
    (h : Chained store dbId cur pages) :
    ∀ fuel acc, pages.length ≤ fuel →
    fetchGo store dbId fuel cur acc = some (.ok (acc ++ (pages.map pageItems).flatten)) := by
  induction h with
  | last hstore hcur =>
      intro fuel acc hf
      cases fuel with
      | zero => simp at hf
      | succ f => simp [fetchGo, hstore, hcur]
  | step hstore hcur _ ih =>
      intro fuel acc hf
      cases fuel with
      | zero => simp at hf
      | succ f =>
          have hf2 : _ ≤ f := Nat.le_of_succ_le_succ (by simpa using hf)
          simp [fetchGo, hstore, hcur, ih f _ hf2, List.append_assoc]

/-- Auxiliary: a cursor chain ending in an upstream failure aborts the whole
loop with that error, discarding everything accumulated so far. -/
theorem fetchGo_chainedErr {store : QueryArgs → Except String QueryResp} {dbId : String}
    {cur : Option String} {e : String} {n : Nat}
    (h : ChainedErr store dbId cur e n) :
    ∀ fuel acc, n + 1 ≤ fuel →
    fetchGo store dbId fuel cur acc = some (.error e) := by
  induction h with
  | here hstore =>
      intro fuel acc hf
      cases fuel with
      | zero => simp at hf
      | succ f => simp [fetchGo, hstore]
  | step hstore hcur _ ih =>
      intro fuel acc hf
      cases fuel with
      | zero => simp at hf
      | succ f =>
          have hf2 : _ + 1 ≤ f := Nat.le_of_succ_le_succ hf
          simp [fetchGo, hstore, hcur, ih f _ hf2]

/-- Auxiliary: every item contributed by one page passed the non-empty-name
filter. -/
theorem pageItems_names (resp : QueryResp) : ∀ it ∈ pageItems resp, it.name ≠ "" := by
  intro it hit
  have h2 := List.of_mem_filter hit
  intro heq
  rw [heq] at h2
  exact absurd h2 (by decide)

/-- Auxiliary: every item the pagination loop ever returns has a non-empty
name, provided the accumulator starts that way. -/
theorem fetchGo_names {store : QueryArgs → Except String QueryResp} {dbId : String} :
    ∀ fuel cur acc items, (∀ it ∈ acc, it.name ≠ "") →
    fetchGo store dbId fuel cur acc = some (.ok items) →
    ∀ it ∈ items, it.name ≠ "" := by
  intro fuel
  induction fuel with
  | zero => intro cur acc items _ h; simp [fetchGo] at h
  | succ f ih =>
      intro cur acc items hacc h
      rw [fetchGo] at h
      cases hs : store (mkQuery dbId cur) with
      | error e => rw [hs] at h; simp at h
      | ok resp =>
          rw [hs] at h
          have hacc2 : ∀ it ∈ acc ++ pageItems resp, it.name ≠ "" := by
            intro it hit
            rcases List.mem_append.mp hit with h1 | h1
            · exact hacc it h1
            · exact pageItems_names resp it h1
          dsimp only at h
          cases hc : respCursor resp with
          | some c =>
              rw [hc] at h
              exact ih _ _ _ hacc2 h
          | none =>
              rw [hc] at h
              simp only [Option.some_inj, Except.ok.injEq] at h
              subst h
              exact hacc2

/-- Auxiliary: a store whose first response is a single record with no more
pages yields exactly that record's filtered normalization. -/
theorem fetchAll_single (store : QueryArgs → Except String QueryResp) (dbId : String)
    (p : RawPage)
    (h : store (mkQuery dbId none) = .ok { results := [p], has_more := false, next_cursor := none }) :
    fetchAllItems store dbId 1 =
      some (.ok (pageItems { results := [p], has_more := false, next_cursor := none })) := by
  unfold fetchAllItems fetchGo
  rw [h]
  rfl

/-- Auxiliary: one page with a single record contributes that record's item
iff its resolved name is non-empty. -/
theorem pageItems_single (p : RawPage) (hm : Bool) (nc : Option String) :
    pageItems { results := [p], has_more := hm, next_cursor := nc } =
      if (pageToItem p).name = "" then [] else [pageToItem p] := by
  by_cases hn : (pageToItem p).name = ""
  · have hb : (pageToItem p).name.isEmpty = true := (String.isEmpty_iff _).mpr hn
    rw [if_pos hn]
    simp [pageItems, List.filter_cons, hb]
  · have hb : (pageToItem p).name.isEmpty = false := by
      cases hcase : (pageToItem p).name.isEmpty
      · rfl
      · exact absurd ((String.isEmpty_iff _).mp hcase) hn
    rw [if_neg hn]
    simp [pageItems, List.filter_cons, hb]

/-- C6: any page failure aborts the whole fetch with the upstream error and
no partial items, and the items endpoint surfaces it as a 500 with the
fixed error string and the failure detail; on a successful cursor chain it
answers 200 with the concatenated normalized pages. -/
theorem items_endpoint_error_and_success (dbId : String) :
    (∀ (store : QueryArgs → Except String QueryResp) (e : String) (n fuel : Nat),
      ChainedErr store dbId none e n → n + 1 ≤ fuel →
      itemsEndpoint store dbId fuel = some (.fail "notion query failed" e) ∧
      (ItemsResp.fail "notion query failed" e).status = 500) ∧
    (∀ (store : QueryArgs → Except String QueryResp) (pages : List QueryResp) (fuel : Nat),
      Chained store dbId none pages → pages.length ≤ fuel →
      itemsEndpoint store dbId fuel = some (.ok ((pages.map pageItems).flatten)) ∧
      (ItemsResp.ok ((pages.map pageItems).flatten)).status = 200) := by
  constructor
  · intro store e n fuel hch hf
    refine ⟨?_, rfl⟩
    unfold itemsEndpoint fetchAllItems
    rw [fetchGo_chainedErr hch fuel [] hf]
  · intro store pages fuel hch hf
    refine ⟨?_, rfl⟩
    unfold itemsEndpoint fetchAllItems
    rw [fetchGo_chained hch fuel [] hf]
    simp

/-- The single record used by the C6 witness stores. -/
def c6Page : RawPage :=
  { id := "P", properties := [("item name", { title := some [{ plain_text := some "Work" }] })] }

/-- C6 witness store: first page succeeds and continues, second request
fails upstream. -/
def c6StoreErr : QueryArgs → Except String QueryResp :=
  fun q => if q.start_cursor = none
           then .ok { results := [c6Page], has_more := true, next_cursor := some "c1" }
           else .error "notion unreachable"

/-- C6 witness store: a single successful page. -/
def c6StoreOk : QueryArgs → Except String QueryResp :=
  fun _ => .ok { results := [c6Page], has_more := false, next_cursor := none }

/-- C6 witness: on the failing store the endpoint answers the 500 payload
with no items even though one page had been fetched; on the successful
store it answers the items. -/
theorem items_endpoint_error_and_success_witness :
    itemsEndpoint c6StoreErr "db" 2 = some (.fail "notion query failed" "notion unreachable") ∧
    itemsEndpoint c6StoreOk "db" 1 = some (.ok [pageToItem c6Page]) := by
  constructor
  · exact ((items_endpoint_error_and_success "db").1 c6StoreErr "notion unreachable" 1 2
      (ChainedErr.step rfl rfl (ChainedErr.here rfl)) (by decide)).1
  · exact (((items_endpoint_error_and_success "db").2 c6StoreOk
      [{ results := [c6Page], has_more := false, next_cursor := none }] 1
      (Chained.last rfl rfl) (by decide)).1).trans (by rfl)

/-- C8: every request of the pagination loop carries the fixed page size
100, and over any finite cursor chain the result is exactly the
concatenation of the normalized pages in page order (each page keeping its
within-page order) — no local re-sorting. -/
theorem fetchAll_concatenated_pages (dbId : String) :
    (∀ cursor, (mkQuery dbId cursor).page_size = 100) ∧
    (∀ (store : QueryArgs → Except String QueryResp) (pages : List QueryResp) (fuel : Nat),
      Chained store dbId none pages → pages.length ≤ fuel →
      fetchAllItems store dbId fuel = some (.ok ((pages.map pageItems).flatten))) := by
  refine ⟨fun _ => rfl, ?_⟩
  intro store pages fuel hch hf
  unfold fetchAllItems
  rw [fetchGo_chained hch fuel [] hf]
  simp

/-- First page record of the C8 witness. -/
def c8PageA : RawPage :=
  { id := "A", properties := [("item name", { title := some [{ plain_text := some "Alpha" }] })] }

/-- Second page record of the C8 witness. -/
def c8PageB : RawPage :=
  { id := "B", properties := [("Name", { title := some [{ plain_text := some " Beta " }] })] }

/-- First response page of the C8 witness chain. -/
def c8RespA : QueryResp := { results := [c8PageA], has_more := true, next_cursor := some "c1" }

/-- Second and final response page of the C8 witness chain. -/
def c8RespB : QueryResp := { results := [c8PageB], has_more := false, next_cursor := none }

/-- C8 witness store: a two-page cursor chain. -/
def c8Store : QueryArgs → Except String QueryResp :=
  fun q => if q.start_cursor = none then .ok c8RespA else .ok c8RespB

/-- C8 witness: the concrete two-page chain yields the two normalized items
in page order, and the issued queries use page size 100. -/
theorem fetchAll_concatenated_pages_witness :
    (mkQuery "db" none).page_size = 100 ∧
    fetchAllItems c8Store "db" 2 = some (.ok (([c8RespA, c8RespB].map pageItems).flatten)) ∧
    fetchAllItems c8Store "db" 2 = some (.ok [pageToItem c8PageA, pageToItem c8PageB]) := by
  have h := (fetchAll_concatenated_pages "db").2 c8Store [c8RespA, c8RespB] 2
      (Chained.step rfl rfl (Chained.last rfl rfl)) (by decide)
  exact ⟨(fetchAll_concatenated_pages "db").1 none, h, h.trans (by rfl)⟩

/-- C7: the display name resolves from the prioritized aliases — the primary
field `item name` first, the fallback `Name` otherwise — and is trimmed; a
record lacking the primary field but having a fallback title with non-empty
trimmed first fragment is included; a record whose resolved name is empty
is excluded; and every item a fetch returns has a non-empty name. -/
theorem normalize_name_priority_and_filter :
    (∀ (p : RawPage) (pv : PropVal) (ts : List RichText),
      p.properties.lookup "item name" = some pv → pv.title = some ts →
      (pageToItem p).name = jsTrim ((ts.head?.bind (fun v => v.plain_text)).getD "")) ∧
    (∀ (store : QueryArgs → Except String QueryResp) (dbId : String)
        (p : RawPage) (pv : PropVal) (ts : List RichText),
      p.properties.lookup "item name" = none →
      p.properties.lookup "Name" = some pv → pv.title = some ts →
      jsTrim ((ts.head?.bind (fun v => v.plain_text)).getD "") ≠ "" →
      store (mkQuery dbId none) = .ok { results := [p], has_more := false, next_cursor := none } →
      fetchAllItems store dbId 1 = some (.ok [pageToItem p])) ∧
    (∀ (store : QueryArgs → Except String QueryResp) (dbId : String) (p : RawPage),
      (pageToItem p).name = "" →
      store (mkQuery dbId none) = .ok { results := [p], has_more := false, next_cursor := none } →
      fetchAllItems store dbId 1 = some (.ok [])) ∧
    (∀ (store : QueryArgs → Except String QueryResp) (dbId : String) (fuel : Nat)
        (items : List Item),
      fetchAllItems store dbId fuel = some (.ok items) → ∀ it ∈ items, it.name ≠ "") := by
  refine ⟨?_, ?_, ?_, ?_⟩
  · intro p pv ts h1 h2
    simp [pageToItem, resolveTitle, h1, h2]
  · intro store dbId p pv ts h1 h2 h3 hname hstore
    have heq2 : (pageToItem p).name = jsTrim ((ts.head?.bind (fun v => v.plain_text)).getD "") := by
      simp [pageToItem, resolveTitle, h1, h2, h3]
    rw [fetchAll_single store dbId p hstore, pageItems_single, heq2, if_neg hname]
  · intro store dbId p hname hstore
    rw [fetchAll_single store dbId p hstore, pageItems_single, if_pos hname]
  · intro store dbId fuel items h
    exact fetchGo_names fuel none [] items (by simp) h

/-- Record with both name fields: the primary alias wins. -/
def c7Primary : RawPage :=
  { id := "P1"
    properties := [("item name", { title := some [{ plain_text := some " Alpha " }] }),
                   ("Name", { title := some [{ plain_text := some "Ignored" }] })] }

/-- Record lacking the primary name field but carrying the fallback. -/
def c7Fallback : RawPage :=
  { id := "P2", properties := [("Name", { title := some [{ plain_text := some " Gamma " }] })] }

/-- Record whose resolved name trims to empty. -/
def c7Empty : RawPage :=
  { id := "P3", properties := [("item name", { title := some [{ plain_text := some "   " }] })] }

/-- C7 witness store over the fallback record. -/
def c7StoreFallback : QueryArgs → Except String QueryResp :=
  fun _ => .ok { results := [c7Fallback], has_more := false, next_cursor := none }

/-- C7 witness store over the empty-name record. -/
def c7StoreEmpty : QueryArgs → Except String QueryResp :=
  fun _ => .ok { results := [c7Empty], has_more := false, next_cursor := none }

/-- C7 witness: the primary alias wins and is trimmed; the fallback-only
record is included; the empty-name record is excluded; a returned item has
a non-empty name. -/
theorem normalize_name_priority_and_filter_witness :
    (pageToItem c7Primary).name = "Alpha" ∧
    fetchAllItems c7StoreFallback "db" 1 = some (.ok [pageToItem c7Fallback]) ∧
    fetchAllItems c7StoreEmpty "db" 1 = some (.ok []) ∧
    (pageToItem c7Fallback).name ≠ "" := by
  refine ⟨?_, ?_, ?_, ?_⟩
  · exact (normalize_name_priority_and_filter.1 c7Primary
      { title := some [{ plain_text := some " Alpha " }] }
      [{ plain_text := some " Alpha " }] (by decide) (by decide)).trans (by decide)
  · exact normalize_name_priority_and_filter.2.1 c7StoreFallback "db" c7Fallback
      { title := some [{ plain_text := some " Gamma " }] }
      [{ plain_text := some " Gamma " }]
      (by decide) (by decide) (by decide) (by decide) rfl
  · exact normalize_name_priority_and_filter.2.2.1 c7StoreEmpty "db" c7Empty (by decide) rfl
  · exact normalize_name_priority_and_filter.2.2.2 c7StoreFallback "db" 1 [pageToItem c7Fallback]
      (normalize_name_priority_and_filter.2.1 c7StoreFallback "db" c7Fallback
        { title := some [{ plain_text := some " Gamma " }] }
        [{ plain_text := some " Gamma " }]
        (by decide) (by decide) (by decide) (by decide) rfl)
      (pageToItem c7Fallback) (by simp)

/-- C9: the resolved name reads only the first fragment of the chosen title
array — the trimmed `plain_text` of the head — so a record whose title's
first fragment trims to empty is excluded even when later fragments carry
text, unlike the rich-text reader which joins all fragments. -/
theorem normalize_title_head_only :
    (∀ (p : RawPage) (rt : RichText) (rest : List RichText),
      resolveTitle p.properties = rt :: rest →
      (pageToItem p).name = jsTrim (rt.plain_text.getD "")) ∧
    (∀ (store : QueryArgs → Except String QueryResp) (dbId : String)
        (p : RawPage) (rt : RichText) (rest : List RichText),
      resolveTitle p.properties = rt :: rest →
      jsTrim (rt.plain_text.getD "") = "" →
      store (mkQuery dbId none) = .ok { results := [p], has_more := false, next_cursor := none } →
      fetchAllItems store dbId 1 = some (.ok [])) ∧
    (∀ a b : RichText,
      richToText (some [a, b]) = a.plain_text.getD "" ++ b.plain_text.getD "") := by
  refine ⟨?_, ?_, ?_⟩
  · intro p rt rest h
    simp [pageToItem, h]
  · intro store dbId p rt rest h hempty hstore
    have hname : (pageToItem p).name = "" := by
      simp [pageToItem, h, hempty]
    rw [fetchAll_single store dbId p hstore, pageItems_single, if_pos hname]
  · intro a b
    simp [richToText, String.join]

/-- Record whose title has an all-blank first fragment and a textual second
fragment. -/
def c9Page : RawPage :=
  { id := "T"
    properties := [("item name",
      { title := some [{ plain_text := some "  " }, { plain_text := some "Tail" }] })] }

/-- C9 witness store over that record. -/
def c9Store : QueryArgs → Except String QueryResp :=
  fun _ => .ok { results := [c9Page], has_more := false, next_cursor := none }

/-- C9 witness: the record's name comes from the blank first fragment only,
so it is excluded despite the textual second fragment, while the rich-text
joiner would have concatenated both fragments. -/
theorem normalize_title_head_only_witness :
    (pageToItem c9Page).name = "" ∧
    fetchAllItems c9Store "db" 1 = some (.ok []) ∧
    richToText (some [{ plain_text := some "  " }, { plain_text := some "Tail" }]) = "  Tail" := by
  refine ⟨?_, ?_, ?_⟩
  · exact (normalize_title_head_only.1 c9Page { plain_text := some "  " }
      [{ plain_text := some "Tail" }] (by decide)).trans (by decide)
  · exact normalize_title_head_only.2.1 c9Store "db" c9Page { plain_text := some "  " }
      [{ plain_text := some "Tail" }] (by decide) (by decide) rfl
  · exact (normalize_title_head_only.2.2 { plain_text := some "  " }
      { plain_text := some "Tail" }).trans (by decide)
